import Mathlib

/-
Verification development for the remote_agent repository's session/process
management core (src/agent_system.py, src/persistent_claude_agent.py,
src/pty_claude_agent.py, src/claude_cli_agent.py).

The Python code is shallowly embedded: dictionaries become insertion-ordered
association lists, the ambient clock and uuid generator become explicit
parameters, asyncio subprocesses become explicit traces of read outcomes, and
OS side effects (signals, descriptor closes) become an explicit effect list.
Timestamps attached to emitted events (datetime.now().isoformat()) are
ambient-clock noise carried by no property below and are omitted from the
event model.
-/

namespace RemoteAgent

/-! ### JSON values

Model of the values produced by Python's json.loads: null, booleans, numbers
(kept as their source lexeme, since no property below computes with them),
strings, arrays and objects.  Objects keep python-dict semantics: insertion
ordered, a repeated key overwrites in place. -/

inductive Json where
  | null : Json
  | bool (b : Bool) : Json
  | num (lexeme : String) : Json
  | str (s : String) : Json
  | arr (elems : List Json) : Json
  | obj (fields : List (String × Json)) : Json
deriving Inhabited

namespace Json

/-- Python dict lookup on an object's field list (first match; the parser
keeps keys unique by overwriting). -/
def getField : List (String × Json) → String → Option Json
  | [], _ => none
  | (k, v) :: rest, key => if k = key then some v else getField rest key

/-- Python dict assignment: overwrite in place if the key exists, else append. -/
def setField (fields : List (String × Json)) (key : String) (v : Json) :
    List (String × Json) :=
  if fields.any (fun f => f.1 = key) then
    fields.map (fun f => if f.1 = key then (key, v) else f)
  else
    fields ++ [(key, v)]

def isWsChar (c : Char) : Bool :=
  c = ' ' ∨ c = '\t' ∨ c = '\n' ∨ c = '\r' ∨ c = '\x0b' ∨ c = '\x0c'

def skipWs : List Char → List Char
  | [] => []
  | c :: cs => if isWsChar c then skipWs cs else c :: cs

def hexVal (c : Char) : Option Nat :=
  if '0' ≤ c ∧ c ≤ '9' then some (c.toNat - '0'.toNat)
  else if 'a' ≤ c ∧ c ≤ 'f' then some (c.toNat - 'a'.toNat + 10)
  else if 'A' ≤ c ∧ c ≤ 'F' then some (c.toNat - 'A'.toNat + 10)
  else none

/-- One escape character after a backslash inside a JSON string. -/
def escChar (c : Char) : Option Char :=
  if c = '\x22' then some '\x22'
  else if c = '\x5c' then some '\x5c'
  else if c = '/' then some '/'
  else if c = 'b' then some '\x08'
  else if c = 'f' then some '\x0c'
  else if c = 'n' then some '\n'
  else if c = 'r' then some '\r'
  else if c = 't' then some '\t'
  else none

/-- Body of a JSON string after the opening quote, with escape handling.
Fuel-driven so the recursion is structurally obvious; the caller passes the
remaining input length, which is always enough. -/
def parseStringBody : Nat → List Char → List Char → Option (String × List Char)
  | 0, _, _ => none
  | _ + 1, _, [] => none
  | fuel + 1, acc, c :: cs =>
    if c = '\x22' then some (String.mk acc.reverse, cs)
    else if c = '\x5c' then
      match cs with
      | 'u' :: a :: b :: c2 :: d :: cs2 =>
        match hexVal a, hexVal b, hexVal c2, hexVal d with
        | some ha, some hb, some hc, some hd =>
          parseStringBody fuel (Char.ofNat (((ha * 16 + hb) * 16 + hc) * 16 + hd) :: acc) cs2
        | _, _, _, _ => none
      | e :: cs2 =>
        match escChar e with
        | some ec => parseStringBody fuel (ec :: acc) cs2
        | none => none
      | [] => none
    else parseStringBody fuel (c :: acc) cs

def isDigit (c : Char) : Bool := '0' ≤ c ∧ c ≤ '9'

def takeDigits : List Char → List Char × List Char
  | [] => ([], [])
  | c :: cs =>
    if isDigit c then
      let (ds, rest) := takeDigits cs
      (c :: ds, rest)
    else ([], c :: cs)

/-- A JSON number's lexeme: integer part, optional fraction, optional exponent.
The lexeme is kept verbatim (no property below computes with numbers). -/
def parseNumber (cs : List Char) : Option (String × List Char) :=
  let (neg, cs1) := match cs with
    | '-' :: rest => (['-'], rest)
    | _ => (([] : List Char), cs)
  let (intPart, cs2) := takeDigits cs1
  if intPart.isEmpty then none
  else
    let (fracPart, cs3) := match cs2 with
      | '.' :: rest =>
        let (ds, r) := takeDigits rest
        if ds.isEmpty then (([] : List Char), cs2) else ('.' :: ds, r)
      | _ => ([], cs2)
    let (expPart, cs4) := match cs3 with
      | e :: rest =>
        if e = 'e' ∨ e = 'E' then
          let (sgn, rest2) := match rest with
            | '+' :: r => (['+'], r)
            | '-' :: r => (['-'], r)
            | _ => (([] : List Char), rest)
          let (ds, r) := takeDigits rest2
          if ds.isEmpty then (([] : List Char), cs3) else (e :: (sgn ++ ds), r)
        else ([], cs3)
      | [] => ([], cs3)
    some (String.mk (neg ++ intPart ++ fracPart ++ expPart), cs4)

mutual

/-- Recursive-descent JSON value, modelling json.loads.  Fuel bounds the
recursion; the top-level entry point passes the input length plus two, which
is always sufficient since every recursive call follows at least one consumed
character. -/
def parseValue : Nat → List Char → Option (Json × List Char)
  | 0, _ => none
  | fuel + 1, cs =>
    match skipWs cs with
    | [] => none
    | c :: rest =>
      if c = '\x22' then
        match parseStringBody (rest.length + 1) [] rest with
        | some (s, r) => some (.str s, r)
        | none => none
      else if c = '\x7b' then
        match skipWs rest with
        | '\x7d' :: r => some (.obj [], r)
        | other => parseMembers fuel [] other
      else if c = '[' then
        match skipWs rest with
        | ']' :: r => some (.arr [], r)
        | other => parseElems fuel [] other
      else if c = 't' then
        match rest with
        | 'r' :: 'u' :: 'e' :: r => some (.bool true, r)
        | _ => none
      else if c = 'f' then
        match rest with
        | 'a' :: 'l' :: 's' :: 'e' :: r => some (.bool false, r)
        | _ => none
      else if c = 'n' then
        match rest with
        | 'u' :: 'l' :: 'l' :: r => some (.null, r)
        | _ => none
      else
        match parseNumber (c :: rest) with
        | some (lex, r) => some (.num lex, r)
        | none => none

/-- Object members after the opening brace (input already known non-empty and
not a closing brace). -/
def parseMembers : Nat → List (String × Json) → List Char → Option (Json × List Char)
  | 0, _, _ => none
  | fuel + 1, acc, cs =>
    match skipWs cs with
    | c :: rest =>
      if c = '\x22' then
        match parseStringBody (rest.length + 1) [] rest with
        | some (key, r1) =>
          match skipWs r1 with
          | ':' :: r2 =>
            match parseValue fuel r2 with
            | some (v, r3) =>
              let acc' := setField acc key v
              match skipWs r3 with
              | ',' :: r4 => parseMembers fuel acc' r4
              | '\x7d' :: r4 => some (.obj acc', r4)
              | _ => none
            | none => none
          | _ => none
        | none => none
      else none
    | [] => none

/-- Array elements after the opening bracket (input already known non-empty
and not a closing bracket). -/
def parseElems : Nat → List Json → List Char → Option (Json × List Char)
  | 0, _, _ => none
  | fuel + 1, acc, cs =>
    match parseValue fuel cs with
    | some (v, r1) =>
      match skipWs r1 with
      | ',' :: r2 => parseElems fuel (acc ++ [v]) r2
      | ']' :: r2 => some (.arr (acc ++ [v]), r2)
      | _ => none
    | none => none

end

/-- json.loads: parse one value and require only whitespace to follow
(json.loads raises on trailing data). -/
def parse (s : String) : Option Json :=
  match parseValue (s.length + 2) s.data with
  | some (j, rest) => if (skipWs rest).isEmpty then some j else none
  | none => none

end Json

/-- Python str.strip(): whitespace removed from both ends. -/
def pyStrip (s : String) : String :=
  String.mk (((s.data.dropWhile Json.isWsChar).reverse.dropWhile Json.isWsChar).reverse)

/-- Python str() of a decoded JSON value (dict/list repr with single-quoted
strings); used by parse_output for the raw_json fallback's content field.
String escaping inside repr is not reproduced, no property below reads it. -/
def pyStr : Json → String
  | .null => "None"
  | .bool true => "True"
  | .bool false => "False"
  | .num lexeme => lexeme
  | .str s => "\x27" ++ s ++ "\x27"
  | .arr elems => "[" ++ String.intercalate ", " (elems.attach.map (fun x => pyStr x.1)) ++ "]"
  | .obj fields =>
    "\x7b" ++ String.intercalate ", "
      (fields.attach.map (fun x => "\x27" ++ x.1.1 ++ "\x27: " ++ pyStr x.1.2)) ++ "\x7d"
decreasing_by
  · have h1 := List.sizeOf_lt_of_mem x.2
    simp only [Json.arr.sizeOf_spec]
    omega
  · have h1 := List.sizeOf_lt_of_mem x.2
    obtain ⟨⟨a, b⟩, hx⟩ := x
    simp only [Prod.mk.sizeOf_spec] at h1
    simp only [Json.obj.sizeOf_spec]
    omega

/-! ### Normalized execution events

The dictionaries yielded by the agents' execute_command generators, as a
tagged variant.  The session_id and agent_type keys stamped onto every dict
are determined by the call (they repeat the arguments) and are not modelled;
nor are the wall-clock timestamp strings. -/

/-- Result of ClaudeCodeAgent.parse_output (agent_system.py lines 277315):
the type / content / raw fields of the returned dict. -/
inductive ParsedOutput where
  | assistant_response (content : String) (raw : Json)
  | result (content : String) (raw : Json)
  | raw_json (content : String) (raw : Json)
  | text (content : String)
deriving Inhabited

/-! ### Python operator semantics on decoded JSON values

parse_output catches only json.JSONDecodeError; every other operation in it
can raise.  These helpers model the raising operations exactly: a returned
error is an uncaught Python exception propagating out of parse_output. -/

/-- Python == between a decoded value and a string literal. -/
def jsonEqStr (j : Json) (s : String) : Bool :=
  match j with
  | .str t => t = s
  | _ => false

/-- Python == between the result of dict.get (None when absent) and a
string literal. -/
def optJsonEqStr (o : Option Json) (s : String) : Bool :=
  match o with
  | some j => jsonEqStr j s
  | none => false

def startsWithList : List Char → List Char → Bool
  | _, [] => true
  | [], _ :: _ => false
  | h :: hs, n :: ns => h = n && startsWithList hs ns

def containsSub : List Char → List Char → Bool
  | [], needle => needle.isEmpty
  | h :: t, needle => startsWithList (h :: t) needle || containsSub t needle

/-- Python needle in hay on strings: substring test. -/
def pyInStr (needle hay : String) : Bool := containsSub hay.data needle.data

/-- Python key in c on a decoded value: key test on dicts, element test on
lists, substring test on strings; TypeError on numbers, booleans and
None. -/
def pyContains (c : Json) (key : String) : Except String Bool :=
  match c with
  | .obj fields => .ok (fields.any (fun f => f.1 = key))
  | .arr elems => .ok (elems.any (fun e => jsonEqStr e key))
  | .str s => .ok (pyInStr key s)
  | _ => .error "TypeError: argument of type is not iterable"

/-- Python c[key] with a string key: dict lookup (KeyError when absent);
TypeError on lists, strings and everything else. -/
def pySubscript (c : Json) (key : String) : Except String Json :=
  match c with
  | .obj fields =>
    match Json.getField fields key with
    | some v => .ok v
    | none => .error "KeyError"
  | .arr _ => .error "TypeError: list indices must be integers or slices, not str"
  | .str _ => .error "TypeError: string indices must be integers"
  | _ => .error "TypeError: object is not subscriptable"

/-- Python iteration over a decoded value: list elements, dict keys, the
characters of a string; TypeError otherwise. -/
def pyIter : Json → Except String (List Json)
  | .arr elems => .ok elems
  | .obj fields => .ok (fields.map (fun f => .str f.1))
  | .str s => .ok (s.data.map (fun c => .str (String.mk [c])))
  | _ => .error "TypeError: object is not iterable"

/-- Python c.get(key): only dicts have the method; AttributeError on
everything else (strings from iterating a dict, characters of a string,
numbers, ...). -/
def pyGetAttrGet (c : Json) (key : String) : Except String (Option Json) :=
  match c with
  | .obj fields => .ok (Json.getField fields key)
  | _ => .error "AttributeError: object has no attribute get"

/-- Python acc += v on a string accumulator: TypeError unless v is a
string. -/
def pyStrConcat (acc : String) (v : Json) : Except String String :=
  match v with
  | .str s => .ok (acc ++ s)
  | _ => .error "TypeError: can only concatenate str"

/-- The model rendering of a stored result value: the string itself, or its
repr otherwise (the Python dict stores the value; the model's content field
is a string). -/
def strOrRepr (v : Json) : String :=
  match v with
  | .str s => s
  | _ => pyStr v

namespace ClaudeCodeAgent

/-- The for loop over parsed["message"]["content"] in the assistant branch
(agent_system.py lines 286288): each item answers content_item.get("type")
 raising AttributeError when the item is not a dict  and a "text"-typed
block has its text (default "") concatenated, raising TypeError when that
value is not a string. -/
def assistantContentLoop : List Json → String → Except String String
  | [], acc => .ok acc
  | item :: rest, acc => do
    let tv ← pyGetAttrGet item "type"
    if optJsonEqStr tv "text" then do
      let xv ← pyGetAttrGet item "text"
      let acc2 ← pyStrConcat acc (xv.getD (.str ""))
      assistantContentLoop rest acc2
    else assistantContentLoop rest acc

/-- The assistant branch body (agent_system.py lines 284288): content
starts empty; when "message" in parsed and "content" in parsed["message"]
both hold (each in / [] may raise as in Python), parsed["message"]["content"]
is iterated (raising on non-iterables) and text blocks are concatenated. -/
def assistantText (parsed : Json) : Except String String := do
  let hasMsg ← pyContains parsed "message"
  if hasMsg then do
    let msg ← pySubscript parsed "message"
    let hasContent ← pyContains msg "content"
    if hasContent then do
      let contentVal ← pySubscript msg "content"
      let items ← pyIter contentVal
      assistantContentLoop items ""
    else .ok ""
  else .ok ""

/-- ClaudeCodeAgent.parse_output (agent_system.py lines 277315): only
json.JSONDecodeError is caught (a decode failure wraps the line as a plain
text event).  For a decoded value, "type" in parsed may raise TypeError
(numbers, booleans, None), and when it holds, parsed["type"] may raise
TypeError (lists containing "type", strings with "type" as a substring); an
error value is that uncaught exception.  An assistant-tagged object
flattens its text blocks (raising on malformed message/content shapes), a
result-tagged object reports parsed.get("result", ""), and any other
decoded value becomes a raw_json event.  The and in the Python condition
evaluates "type" in parsed / parsed["type"] once per branch with the same
outcome; the model evaluates them once. -/
def parse_output (output : String) : Except String ParsedOutput :=
  match Json.parse output with
  | none => .ok (.text output)
  | some parsed => do
    let hasType ← pyContains parsed "type"
    if hasType then do
      let tv ← pySubscript parsed "type"
      if jsonEqStr tv "assistant" then do
        let content ← assistantText parsed
        pure (.assistant_response content parsed)
      else if jsonEqStr tv "result" then do
        let rv ← pyGetAttrGet parsed "result"
        pure (.result (strOrRepr (rv.getD (.str ""))) parsed)
      else pure (.raw_json (pyStr parsed) parsed)
    else pure (.raw_json (pyStr parsed) parsed)

end ClaudeCodeAgent

/-! ### Data model (agent_system.py lines 2052)

uuid4 session ids and datetime.now() timestamps are ambient; the model takes
the fresh id and the current time as explicit parameters.  A subprocess
handle is reduced to its pid and its returncode field (None while running). -/

inductive AgentType where
  | claude_code
  | gemini_cli
  | custom
deriving DecidableEq, Inhabited

structure AgentConfig where
  agent_type : AgentType
  executable_path : String
  default_args : List String
  working_directory : Option String := none
  timeout : Nat := 3600
  max_sessions : Nat := 5
  stream_format : String := "stream-json"
deriving DecidableEq, Inhabited

/-- The live-process handle a Session may hold: pid plus the returncode
asyncio exposes (none while the process runs). -/
structure Proc where
  pid : Int
  returncode : Option Int
deriving DecidableEq, Inhabited

structure Session where
  id : String
  user_id : String
  agent_type : AgentType
  process : Option Proc
  created_at : Nat
  working_directory : String
deriving DecidableEq, Inhabited

/-- OS-visible release actions performed by the termination paths, recorded
in order so double-release can be stated. -/
inductive Eff where
  | proc_terminate (pid : Int)
  | proc_kill (pid : Int)
  | sigterm (pid : Int)
  | sigkill (pid : Int)
  | close_fd (fd : Int)
  | stdin_close (pid : Int)
deriving DecidableEq, Inhabited

/-! ### Insertion-ordered dict of sessions (self.sessions) -/

/-- Lookup in self.sessions. -/
def findSession (sessions : List Session) (sid : String) : Option Session :=
  sessions.find? (fun s => s.id = sid)

/-- Python dict assignment self.sessions[sid] = s: overwrite in place when
the key exists, else append. -/
def dictSetSession (sessions : List Session) (s : Session) : List Session :=
  if sessions.any (fun t => t.id = s.id) then
    sessions.map (fun t => if t.id = s.id then s else t)
  else sessions ++ [s]

namespace BaseAgent

/-- State of one BaseAgent: its immutable config and its sessions dict. -/
structure State where
  config : AgentConfig
  sessions : List Session
deriving DecidableEq, Inhabited

/-- Python min(user_sessions, key=lambda s: s.created_at): the first session
with the least creation time, in dict iteration order. -/
def oldest : List Session → Option Session
  | [] => none
  | s :: rest =>
    match oldest rest with
    | none => some s
    | some m => some (if m.created_at < s.created_at then m else s)

/-- BaseAgent.terminate_session (agent_system.py lines 199217): unknown id
returns False; otherwise the held process, if any and still running, gets
terminate() and  when diesOnTerm is false, i.e. the returncode is still
None after the 0.1s sleep  kill(); the entry is then deleted and True
returned.  The released effects are recorded. -/
def terminate_session (st : State) (sid : String) (diesOnTerm : Bool) :
    Bool × State × List Eff :=
  match findSession st.sessions sid with
  | none => (false, st, [])
  | some s =>
    let effs :=
      match s.process with
      | some p =>
        if p.returncode = none then
          .proc_terminate p.pid :: (if diesOnTerm then [] else [.proc_kill p.pid])
        else []
      | none => []
    (true, { st with sessions := st.sessions.filter (fun t => ¬ t.id = sid) }, effs)

/-- BaseAgent.create_session (agent_system.py lines 6490): when the user
already holds max_sessions sessions or more, the oldest of them is
terminated first; then the working directory defaults (explicit argument,
else config.working_directory when truthy, else os.getcwd()) and a fresh
Session with no process is stored under the fresh uuid. -/
def create_session (st : State) (user_id : String) (working_directory : Option String)
    (session_id : String) (now : Nat) (cwd : String) : State :=
  let user_sessions := st.sessions.filter (fun s => s.user_id = user_id)
  let st1 :=
    if st.config.max_sessions ≤ user_sessions.length then
      match oldest user_sessions with
      | some o => (terminate_session st o.id true).2.1
      | none => st
    else st
  let wd :=
    match working_directory with
    | some w => w
    | none =>
      match st.config.working_directory with
      | some w => if w = "" then cwd else w
      | none => cwd
  { st1 with
    sessions := dictSetSession st1.sessions
      ⟨session_id, user_id, st.config.agent_type, none, now, wd⟩ }

end BaseAgent

/-! ### The streaming execution loop (agent_system.py lines 92197)

The asyncio subprocess driven by one call of execute_command is abstracted
to a trace: the outcome of each successive readline attempt, whether the
process still runs when a readline attempt times out, the exit codes wait()
reports, and the stderr text.  Timing model: each readline attempt that ends
in asyncio.TimeoutError consumes its full 0.1-second budget (one decisecond)
while a completed read returns immediately; the wall-clock check at the top
of the loop compares the elapsed deciseconds against the loop's timeout. -/

/-- One readline attempt's outcome. -/
inductive ReadOutcome where
  | line (s : String)
  | eof
  | timedOut
  | exc
deriving DecidableEq, Inhabited

/-- The behaviour of the underlying process during one execution. -/
structure ProcTrace where
  read : Nat → ReadOutcome
  runningAt : Nat → Bool
  termExitCode : Int
  selfExitCode : Int
  stderrText : String
  spawnExc : Option String := none

/-- The dicts yielded by BaseAgent.execute_command, as a tagged variant (the
session_id / agent_type keys stamped on each dict repeat the call's
arguments and are omitted). -/
inductive ExecEvent where
  | session_not_found
  | output (p : ParsedOutput)
  | timeout_error (secs : Nat)
  | command_failed (return_code : Int) (stderr : String)
  | exception_error (msg : String)
deriving Inhabited

/-- The wall-clock timeout of the streaming loop: the local variable
timeout = 300 of agent_system.py line 120, a literal independent of
AgentConfig.timeout. -/
def execTimeoutSecs : Nat := 300

/-- What one execution's streaming loop produced: the yielded events,
whether it ended through the wall-clock timeout branch (which calls
process.terminate()), and if so at which elapsed decisecond. -/
structure LoopOut where
  events : List ExecEvent
  timedOut : Bool
  terminatedAtDs : Option Nat
deriving Inhabited

namespace BaseAgent

/-- The while loop of execute_command (agent_system.py lines 122168): at
the top of each iteration the elapsed time is checked against the hardcoded
timeout (terminate + timeout event + break when exceeded); otherwise one
readline attempt is made  a nonempty stripped line is parsed and yielded,
empty bytes end the loop, a TimeoutError re-checks process liveness and
retries, and any other exception  including an uncaught exception raised
inside parse_output  is swallowed by the generic except at lines 166168,
which logs and breaks, silently ending the stream.  Fuel only bounds the
recursion; callers pass enough for the trace at hand. -/
def stream_loop (parse : String → Except String ParsedOutput) (tr : ProcTrace) :
    Nat → Nat → Nat → LoopOut
  | 0, _, _ => ⟨[], false, none⟩
  | fuel + 1, i, elapsedDs =>
    if execTimeoutSecs * 10 < elapsedDs then
      ⟨[.timeout_error execTimeoutSecs], true, some elapsedDs⟩
    else
      match tr.read i with
      | .line s =>
        let out := pyStrip s
        if out = "" then stream_loop parse tr fuel (i + 1) elapsedDs
        else
          match parse out with
          | .ok p =>
            let r := stream_loop parse tr fuel (i + 1) elapsedDs
            ⟨.output p :: r.events, r.timedOut, r.terminatedAtDs⟩
          | .error _ => ⟨[], false, none⟩
      | .eof => ⟨[], false, none⟩
      | .timedOut =>
        if tr.runningAt i then stream_loop parse tr fuel (i + 1) (elapsedDs + 1)
        else ⟨[], false, none⟩
      | .exc => ⟨[], false, none⟩

/-- Clear the session's process reference (the finally block, line 197). -/
def clearProcess (st : State) (sid : String) : State :=
  { st with
    sessions := st.sessions.map (fun s => if s.id = sid then { s with process := none } else s) }

/-- BaseAgent.execute_command (agent_system.py lines 92197): unknown
session ids yield a single error dict; an exception while preparing or
spawning yields a single error dict; otherwise the streaming loop runs,
process.wait() is awaited (reporting termExitCode when the loop terminated
the process, selfExitCode otherwise) and a non-zero exit appends one
command-failed event carrying the stripped stderr text.  The finally block
always clears the session's process reference; the session is never removed
from the sessions dict. -/
def execute_command (parse : String → Except String ParsedOutput) (st : State) (sid : String)
    (tr : ProcTrace) (fuel : Nat) : List ExecEvent × State :=
  match findSession st.sessions sid with
  | none => ([.session_not_found], st)
  | some _ =>
    match tr.spawnExc with
    | some msg => ([.exception_error msg], clearProcess st sid)
    | none =>
      let r := stream_loop parse tr fuel 0 0
      let code := if r.timedOut then tr.termExitCode else tr.selfExitCode
      let events :=
        if code ≠ 0 then r.events ++ [.command_failed code (pyStrip tr.stderrText)]
        else r.events
      (events, clearProcess st sid)

end BaseAgent

/-! ### Concrete fixtures -/

/-- A claude_code AgentConfig with an explicit configured timeout (the
dataclass default is 3600 seconds). -/
def cfgClaude (timeoutSecs : Nat) : AgentConfig :=
  { agent_type := .claude_code, executable_path := "claude", default_args := [],
    timeout := timeoutSecs }

def sessionS1 : Session := ⟨"s1", "u1", .claude_code, none, 0, "/work"⟩

/-- An agent holding the single idle session "s1" of user "u1". -/
def stIdle (timeoutSecs : Nat) : BaseAgent.State := ⟨cfgClaude timeoutSecs, [sessionS1]⟩

/-- A process that never writes a byte and never exits on its own: every
readline attempt times out with the process still running; after the loop's
terminate() the wait() reports the SIGTERM status -15, with empty stderr. -/
def silentProcess : ProcTrace :=
  { read := fun _ => .timedOut
    runningAt := fun _ => true
    termExitCode := -15
    selfExitCode := 0
    stderrText := "" }

/-- Against the silent process the streaming loop spins through timed-out
reads, one decisecond each, until the elapsed time first exceeds the
hardcoded 300-second budget  at 3001 deciseconds  then terminates the
process and yields exactly one timeout event. -/
theorem silent_stream_loop (parse : String → Except String ParsedOutput) :
    ∀ fuel i elapsed, 3001 - elapsed < fuel → elapsed ≤ 3001 →
      BaseAgent.stream_loop parse silentProcess fuel i elapsed =
        ⟨[.timeout_error execTimeoutSecs], true, some 3001⟩ := by
  intro fuel
  induction fuel with
  | zero => intro i elapsed h _; omega
  | succ n ih =>
    intro i elapsed h hle
    rw [BaseAgent.stream_loop]
    by_cases hc : execTimeoutSecs * 10 < elapsed
    · have he : elapsed = 3001 := by
        simp only [execTimeoutSecs] at hc; omega
      subst he
      simp [hc]
    · have hrec : 3001 - (elapsed + 1) < n := by
        simp only [execTimeoutSecs] at hc; omega
      have hle2 : elapsed + 1 ≤ 3001 := by
        simp only [execTimeoutSecs] at hc; omega
      simp only [if_neg hc, silentProcess]
      exact ih (i + 1) (elapsed + 1) hrec hle2

/-- Unfolding of execute_command on a known session with no spawn
exception: the loop runs and the exit-code branch follows it. -/
theorem execute_command_found (parse : String → Except String ParsedOutput) (st : BaseAgent.State)
    (sid : String) (tr : ProcTrace) (fuel : Nat) (s : Session)
    (hs : findSession st.sessions sid = some s) (hx : tr.spawnExc = none) :
    BaseAgent.execute_command parse st sid tr fuel =
      (let r := BaseAgent.stream_loop parse tr fuel 0 0
       let code := if r.timedOut then tr.termExitCode else tr.selfExitCode
       ((if code ≠ 0 then r.events ++ [.command_failed code (pyStrip tr.stderrText)]
         else r.events),
        BaseAgent.clearProcess st sid)) := by
  unfold BaseAgent.execute_command
  rw [hs, hx]

/-- What execute_command yields against the silent process, for any
configured timeout t: the timeout event for the hardcoded 300 seconds,
then  because the terminated process reports the non-zero status -15
one trailing command-failed event. -/
theorem silent_execute_events (t : Nat) :
    (BaseAgent.execute_command ClaudeCodeAgent.parse_output (stIdle t) "s1"
        silentProcess 4000).1 =
      [.timeout_error execTimeoutSecs, .command_failed (-15) ""] := by
  have h := silent_stream_loop ClaudeCodeAgent.parse_output 4000 0 0
    (by norm_num) (by norm_num)
  rw [execute_command_found ClaudeCodeAgent.parse_output (stIdle t) "s1" silentProcess 4000
    sessionS1 rfl rfl]
  rw [h]
  norm_num
  rfl

/-- Claim C1, refuted at the silent process with the default configured
timeout of 3600 seconds: the loop terminates the process at 3001
deciseconds elapsed (the hardcoded 300-second boundary, not the configured
3600), and the final event of the stream is a process-exit error event, not
the timeout event  the timeout event is only the penultimate event. -/
theorem silent_timeout_counterexample :
    (stIdle 3600).config.timeout = 3600 ∧
    (BaseAgent.stream_loop ClaudeCodeAgent.parse_output silentProcess 4000 0 0).terminatedAtDs
      = some 3001 ∧
    (BaseAgent.execute_command ClaudeCodeAgent.parse_output (stIdle 3600) "s1"
        silentProcess 4000).1 =
      [.timeout_error 300, .command_failed (-15) ""] ∧
    ((BaseAgent.execute_command ClaudeCodeAgent.parse_output (stIdle 3600) "s1"
        silentProcess 4000).1.getLast? ≠ some (.timeout_error 300)) := by
  have h := silent_stream_loop ClaudeCodeAgent.parse_output 4000 0 0
    (by norm_num) (by norm_num)
  have hev := silent_execute_events 3600
  refine ⟨rfl, by rw [h], hev, ?_⟩
  rw [hev]
  intro hlast
  simp only [List.getLast?] at hlast
  exact ExecEvent.noConfusion (Option.some.inj hlast)

/-- Claim C1 as amended: for every configured timeout t, the execution loop
against the silent process forcefully terminates it once the hardcoded
300-second boundary is exceeded and yields a timeout error event followed by
exactly one trailing process-exit error event; the timeout event is the
penultimate, not the final, event. -/
theorem silent_timeout_hardcoded (t : Nat) :
    (BaseAgent.execute_command ClaudeCodeAgent.parse_output (stIdle t) "s1"
        silentProcess 4000).1 =
      [.timeout_error execTimeoutSecs, .command_failed (-15) ""] ∧
    execTimeoutSecs = 300 ∧
    (BaseAgent.stream_loop ClaudeCodeAgent.parse_output silentProcess 4000 0 0).timedOut
      = true :=
  ⟨silent_execute_events t, rfl, by
    rw [silent_stream_loop ClaudeCodeAgent.parse_output 4000 0 0 (by norm_num) (by norm_num)]⟩

/-! ### Malformed output lines (claim C6) -/

/-- Clearing the process reference keeps the session under its id, with the
process field set to none. -/
theorem find?_map_clear (l : List Session) (sid : String) (s : Session)
    (h : l.find? (fun t => t.id = sid) = some s) :
    (l.map (fun t => if t.id = sid then { t with process := none } else t)).find?
      (fun t => t.id = sid) = some { s with process := none } := by
  induction l with
  | nil => simp at h
  | cons a l ih =>
    by_cases ha : a.id = sid
    · rw [List.find?_cons_of_pos _ (by simp [ha])] at h
      have hsa : a = s := by injection h
      subst hsa
      simp only [List.map_cons]
      rw [List.find?_cons_of_pos _ (by simp [ha])]
      simp [ha]
    · rw [List.find?_cons_of_neg _ (by simp [ha])] at h
      simp only [List.map_cons]
      rw [List.find?_cons_of_neg _ (by simp [ha])]
      exact ih h

/-- Claim C8: whatever the trace of one execution does  timeout, non-zero
exit, spawn exception, malformed output  the session's entry survives in
the sessions dict with its process reference cleared, so the next submission
on the same id again passes the membership check.  The execute_command
generator never deletes from the sessions dict. -/
theorem execution_error_keeps_session (parse : String → Except String ParsedOutput)
    (st : BaseAgent.State) (sid : String) (tr : ProcTrace) (fuel : Nat) (s : Session)
    (hs : findSession st.sessions sid = some s) :
    findSession ((BaseAgent.execute_command parse st sid tr fuel).2).sessions sid =
      some { s with process := none } := by
  unfold BaseAgent.execute_command
  rw [hs]
  have hclear : findSession (BaseAgent.clearProcess st sid).sessions sid =
      some { s with process := none } := by
    unfold BaseAgent.clearProcess findSession
    exact find?_map_clear st.sessions sid s hs
  cases hx : tr.spawnExc with
  | some msg => simpa using hclear
  | none => simpa using hclear

/-- Witness for execution_error_keeps_session: the silent timed-out
execution on the one-session agent leaves session "s1" in the map with no
process reference. -/
theorem execution_error_keeps_session_witness :
    findSession ((BaseAgent.execute_command ClaudeCodeAgent.parse_output (stIdle 3600) "s1"
        silentProcess 4000).2).sessions "s1" = some { sessionS1 with process := none } :=
  execution_error_keeps_session ClaudeCodeAgent.parse_output (stIdle 3600) "s1"
    silentProcess 4000 sessionS1 rfl

/-! ### Per-user session cap and eviction (claim C5) -/

/-- A claude_code config whose per-user cap is cap, no default working
directory. -/
def cfgCapped (cap : Nat) : AgentConfig := { cfgClaude 3600 with max_sessions := cap }

/-- An agent with no sessions yet. -/
def emptyAgent (cap : Nat) : BaseAgent.State := ⟨cfgCapped cap, []⟩

/-- The Session object create_session stores for user uid when the working
directory defaults to os.getcwd(): entry e carries the fresh uuid and the
datetime.now() of that call. -/
def mkUserSession (uid cwd : String) (e : String × Nat) : Session :=
  ⟨e.1, uid, .claude_code, none, e.2, cwd⟩

/-- A sequence of create_session calls for one user, each entry supplying
that call's fresh uuid and clock reading. -/
def createMany (st : BaseAgent.State) (uid cwd : String)
    (entries : List (String × Nat)) : BaseAgent.State :=
  entries.foldl (fun s e => BaseAgent.create_session s uid none e.1 e.2 cwd) st

/-- create_session below the cap with a fresh id appends the new session and
evicts nothing. -/
theorem create_session_no_evict (st : BaseAgent.State) (uid sid cwd : String) (t : Nat)
    (hcount : (st.sessions.filter (fun s => s.user_id = uid)).length < st.config.max_sessions)
    (hfresh : ∀ s ∈ st.sessions, ¬ s.id = sid)
    (hwd : st.config.working_directory = none) :
    BaseAgent.create_session st uid none sid t cwd =
      { st with sessions := st.sessions ++ [⟨sid, uid, st.config.agent_type, none, t, cwd⟩] } := by
  have hms : ¬ (st.config.max_sessions ≤ (st.sessions.filter (fun s => s.user_id = uid)).length) := by
    omega
  have hany : (st.sessions.any (fun u => u.id = sid)) = false := by
    rw [List.any_eq_false]
    intro s hs
    simpa using hfresh s hs
  simp only [BaseAgent.create_session, if_neg hms, hwd, dictSetSession, hany,
    Bool.false_eq_true, if_false]

/-- Python min by created_at of a strictly increasing list is its head. -/
theorem oldest_chain (s0 : Session) (rest : List Session)
    (hchain : List.Chain' (fun a b => a.created_at < b.created_at) (s0 :: rest)) :
    BaseAgent.oldest (s0 :: rest) = some s0 := by
  induction rest generalizing s0 with
  | nil => rfl
  | cons a l ih =>
    have h1 : s0.created_at < a.created_at := (List.chain'_cons.mp hchain).1
    have h2 := ih a (List.chain'_cons.mp hchain).2
    rw [BaseAgent.oldest, h2]
    simp only [Option.some.injEq]
    rw [if_neg (by omega)]

/-- At the cap, create_session terminates the user's oldest session (the
head of a strictly increasing dict) and appends the new one. -/
theorem create_session_evicts (cap : Nat) (uid sid cwd : String) (t : Nat)
    (s0 : Session) (rest : List Session)
    (hall : ∀ s ∈ s0 :: rest, s.user_id = uid)
    (hchain : List.Chain' (fun a b => a.created_at < b.created_at) (s0 :: rest))
    (hids : ((s0 :: rest).map Session.id).Nodup)
    (hfresh : ∀ s ∈ s0 :: rest, ¬ s.id = sid)
    (hlen : (s0 :: rest).length = cap) :
    BaseAgent.create_session ⟨cfgCapped cap, s0 :: rest⟩ uid none sid t cwd =
      ⟨cfgCapped cap, rest ++ [⟨sid, uid, .claude_code, none, t, cwd⟩]⟩ := by
  have hfilter : (s0 :: rest).filter (fun s => s.user_id = uid) = s0 :: rest :=
    List.filter_eq_self.mpr (fun s hs => by simp [hall s hs])
  have hrestid : ∀ s ∈ rest, ¬ s.id = s0.id := by
    intro s hs heq
    have := (List.nodup_cons.mp hids).1
    exact this (by rw [← heq]; exact List.mem_map_of_mem Session.id hs)
  have hcapeq : (cfgCapped cap).max_sessions = cap := rfl
  have hcond : (cfgCapped cap).max_sessions ≤ (s0 :: rest).length := by
    rw [hcapeq]
    omega
  have hat : (cfgCapped cap).agent_type = .claude_code := rfl
  have hwdn : (cfgCapped cap).working_directory = none := rfl
  have hfind : findSession (s0 :: rest) s0.id = some s0 := by
    unfold findSession
    exact List.find?_cons_of_pos _ (by simp)
  have hdel : (s0 :: rest).filter (fun t => ¬ t.id = s0.id) = rest := by
    rw [List.filter_cons_of_neg (by simp)]
    exact List.filter_eq_self.mpr (fun s hs => by simp [hrestid s hs])
  have hany : (rest.any (fun u => u.id = sid)) = false := by
    rw [List.any_eq_false]
    intro s hs
    simpa using hfresh s (List.mem_cons_of_mem s0 hs)
  simp only [BaseAgent.create_session, hfilter, if_pos hcond,
    oldest_chain s0 rest hchain, BaseAgent.terminate_session, hfind, hdel,
    dictSetSession, hany, Bool.false_eq_true, if_false, hat, hwdn]

/-- While the user stays strictly below the cap, repeated creation just
appends sessions in order. -/
theorem createMany_under_cap (cap : Nat) (uid cwd : String) :
    ∀ (entries : List (String × Nat)) (pre : List Session),
    (∀ s ∈ pre, s.user_id = uid) →
    (pre.map Session.id ++ entries.map Prod.fst).Nodup →
    pre.length + entries.length ≤ cap →
    createMany ⟨cfgCapped cap, pre⟩ uid cwd entries =
      ⟨cfgCapped cap, pre ++ entries.map (mkUserSession uid cwd)⟩ := by
  intro entries
  induction entries with
  | nil => intro pre _ _ _; simp [createMany]
  | cons e rest ih =>
    intro pre hall hnodup hlen
    have hfresh : ∀ s ∈ pre, ¬ s.id = e.1 := by
      intro s hs heq
      have hdisj := List.disjoint_of_nodup_append hnodup
      exact hdisj (heq ▸ List.mem_map_of_mem Session.id hs)
        (by simp)
    have hstep : BaseAgent.create_session ⟨cfgCapped cap, pre⟩ uid none e.1 e.2 cwd =
        ⟨cfgCapped cap, pre ++ [mkUserSession uid cwd e]⟩ := by
      have hcapeq : (cfgCapped cap).max_sessions = cap := rfl
      have hpre : (⟨cfgCapped cap, pre⟩ : BaseAgent.State).sessions.length <
          (cfgCapped cap).max_sessions := by
        show pre.length < (cfgCapped cap).max_sessions
        rw [hcapeq]
        simp at hlen
        omega
      have := create_session_no_evict ⟨cfgCapped cap, pre⟩ uid e.1 cwd e.2
        (lt_of_le_of_lt (List.length_filter_le _ _) hpre) hfresh rfl
      simpa [mkUserSession, cfgCapped, cfgClaude] using this
    have hmain : createMany ⟨cfgCapped cap, pre⟩ uid cwd (e :: rest) =
        createMany ⟨cfgCapped cap, pre ++ [mkUserSession uid cwd e]⟩ uid cwd rest := by
      unfold createMany
      rw [List.foldl_cons, hstep]
    rw [hmain]
    rw [ih (pre ++ [mkUserSession uid cwd e])
      (by intro s hs; rcases List.mem_append.mp hs with h | h
          · exact hall s h
          · simp at h; subst h; rfl)
      (by simpa [mkUserSession, List.append_assoc] using hnodup)
      (by simp at hlen ⊢; omega)]
    simp

/-- Claim C5: creating cap+1 sessions for one user (fresh uuids, strictly
increasing clock readings) leaves exactly cap sessions for that user, namely
those of the last cap calls, and the evicted session is the one with the
earliest creation timestamp. -/
theorem cap_plus_one_evicts_oldest (cap : Nat) (uid cwd : String)
    (e0 : String × Nat) (rest : List (String × Nat))
    (hcap : 1 ≤ cap)
    (hlen : (e0 :: rest).length = cap + 1)
    (hmono : List.Chain' (fun a b => a.2 < b.2) (e0 :: rest))
    (hids : ((e0 :: rest).map Prod.fst).Nodup) :
    (createMany (emptyAgent cap) uid cwd (e0 :: rest)).sessions =
      rest.map (mkUserSession uid cwd) ∧
    ((createMany (emptyAgent cap) uid cwd (e0 :: rest)).sessions.filter
      (fun s => s.user_id = uid)).length = cap ∧
    ∀ s ∈ (createMany (emptyAgent cap) uid cwd (e0 :: rest)).sessions,
      e0.2 < s.created_at := by
  rcases List.eq_nil_or_concat rest with hnil | ⟨mid, lastE, hrest⟩
  · subst hnil
    simp at hlen
    omega
  subst hrest
  simp only [List.concat_eq_append] at hlen hmono hids ⊢
  have hmidlen : mid.length + 1 = cap := by
    simp at hlen
    omega
  have hbuild : createMany (emptyAgent cap) uid cwd (e0 :: mid) =
      ⟨cfgCapped cap, (e0 :: mid).map (mkUserSession uid cwd)⟩ := by
    have := createMany_under_cap cap uid cwd (e0 :: mid) []
      (by intro s hs; simp at hs)
      (by
        have : ((e0 :: mid) ++ [lastE]).map Prod.fst = (e0 :: mid).map Prod.fst ++ [lastE.1] := by
          simp
        have hsub : ((e0 :: mid).map Prod.fst).Sublist (((e0 :: mid) ++ [lastE]).map Prod.fst) := by
          simp
        simpa using (List.Nodup.sublist hsub (by simpa [List.cons_append] using hids)))
      (by simp; omega)
    simpa using this
  have hchainfront : List.Chain' (fun a b => a.2 < b.2) (e0 :: mid) := by
    have hmono2 : List.Chain' (fun a b : String × Nat => a.2 < b.2) ((e0 :: mid) ++ [lastE]) := by
      simpa [List.cons_append] using hmono
    exact (List.chain'_append.mp hmono2).1
  have hchainmap : List.Chain'
      (fun a b : Session => a.created_at < b.created_at)
      ((e0 :: mid).map (mkUserSession uid cwd)) := by
    rw [List.chain'_map]
    exact hchainfront
  have hidsfront : (((e0 :: mid).map (mkUserSession uid cwd)).map Session.id).Nodup := by
    have : ((e0 :: mid).map (mkUserSession uid cwd)).map Session.id =
        (e0 :: mid).map Prod.fst := by
      simp [mkUserSession]
    rw [this]
    have hsub : ((e0 :: mid).map Prod.fst).Sublist (((e0 :: mid) ++ [lastE]).map Prod.fst) := by
      simp
    exact List.Nodup.sublist hsub (by simpa [List.cons_append] using hids)
  have hlastfresh : ∀ s ∈ (e0 :: mid).map (mkUserSession uid cwd), ¬ s.id = lastE.1 := by
    intro s hs heq
    obtain ⟨e, he, hse⟩ := List.mem_map.mp hs
    have hid : e.1 = lastE.1 := by rw [← heq, ← hse]; rfl
    have hnd : (((e0 :: mid).map Prod.fst) ++ [lastE.1]).Nodup := by
      simpa [List.cons_append] using hids
    have hdisj := List.disjoint_of_nodup_append hnd
    exact hdisj (List.mem_map_of_mem Prod.fst he) (by simp [hid])
  have hevict := create_session_evicts cap uid lastE.1 cwd lastE.2
    (mkUserSession uid cwd e0) (mid.map (mkUserSession uid cwd))
    (by
      intro s hs
      rcases List.mem_cons.mp hs with h | h
      · subst h; rfl
      · obtain ⟨e, _, hse⟩ := List.mem_map.mp h
        rw [← hse]; rfl)
    (by simpa using hchainmap)
    (by simpa using hidsfront)
    (by simpa using hlastfresh)
    (by simp; omega)
  have hfinal : createMany (emptyAgent cap) uid cwd (e0 :: (mid ++ [lastE])) =
      ⟨cfgCapped cap, (mid ++ [lastE]).map (mkUserSession uid cwd)⟩ := by
    have hsplit : createMany (emptyAgent cap) uid cwd ((e0 :: mid) ++ [lastE]) =
        BaseAgent.create_session (createMany (emptyAgent cap) uid cwd (e0 :: mid))
          uid none lastE.1 lastE.2 cwd := by
      unfold createMany
      rw [List.foldl_append]
      rfl
    rw [← List.cons_append, hsplit, hbuild]
    rw [show ((e0 :: mid).map (mkUserSession uid cwd)) =
          mkUserSession uid cwd e0 :: mid.map (mkUserSession uid cwd) from rfl] at *
    rw [hevict]
    simp [mkUserSession]
  refine ⟨by rw [hfinal], ?_, ?_⟩
  · rw [hfinal]
    have hall : ((mid ++ [lastE]).map (mkUserSession uid cwd)).filter
        (fun s => s.user_id = uid) = (mid ++ [lastE]).map (mkUserSession uid cwd) := by
      refine List.filter_eq_self.mpr (fun s hs => ?_)
      obtain ⟨e, _, hse⟩ := List.mem_map.mp hs
      rw [← hse]
      simp [mkUserSession]
    rw [hall]
    simp
    omega
  · rw [hfinal]
    intro s hs
    obtain ⟨e, he, hse⟩ := List.mem_map.mp hs
    haveI : IsTrans (String × Nat) (fun a b => a.2 < b.2) :=
      ⟨fun a b c h1 h2 => lt_trans h1 h2⟩
    have hpw := (List.chain'_iff_pairwise.mp hmono)
    have := (List.pairwise_cons.mp hpw).1 e he
    rw [← hse]
    exact this

/-- Witness for cap_plus_one_evicts_oldest: cap 1, two creations; the first
session is evicted, the second survives. -/
theorem cap_plus_one_evicts_oldest_witness :
    (createMany (emptyAgent 1) "u1" "/work" [("a", 0), ("b", 1)]).sessions =
      [("b", 1)].map (mkUserSession "u1" "/work") ∧
    ((createMany (emptyAgent 1) "u1" "/work" [("a", 0), ("b", 1)]).sessions.filter
      (fun s => s.user_id = "u1")).length = 1 ∧
    ∀ s ∈ (createMany (emptyAgent 1) "u1" "/work" [("a", 0), ("b", 1)]).sessions,
      (("a", 0) : String × Nat).2 < s.created_at :=
  cap_plus_one_evicts_oldest 1 "u1" "/work" ("a", 0) [("b", 1)] (by norm_num) rfl
    (by simp) (by simp)

/-! ### The Manager registry (claim C3)

AgentManager (agent_system.py lines 369450): the registered agents and the
session_to_agent routing dict. -/

namespace AgentManager

structure State where
  agents : List (AgentType × BaseAgent.State)
  session_to_agent : List (String × AgentType)
deriving DecidableEq, Inhabited

/-- self.agents[agent_type] lookup. -/
def lookupAgent (agents : List (AgentType × BaseAgent.State)) (ty : AgentType) :
    Option BaseAgent.State :=
  (agents.find? (fun a => a.1 = ty)).map Prod.snd

/-- Store back one agent's updated state. -/
def setAgent (agents : List (AgentType × BaseAgent.State)) (ty : AgentType)
    (ag : BaseAgent.State) : List (AgentType × BaseAgent.State) :=
  agents.map (fun a => if a.1 = ty then (ty, ag) else a)

/-- AgentManager.create_session (agent_system.py lines 385397): an
unregistered agent type returns None; otherwise the agent creates the
session (evicting its own oldest session at the cap) and the manager then
records session_id to agent_type in its routing dict.  The agent-level
eviction never touches session_to_agent. -/
def create_session (st : State) (agent_type : AgentType) (user_id : String)
    (working_directory : Option String) (sid : String) (now : Nat) (cwd : String) :
    Option String × State :=
  match lookupAgent st.agents agent_type with
  | none => (none, st)
  | some agent =>
    let agent2 := BaseAgent.create_session agent user_id working_directory sid now cwd
    (some sid,
     ⟨setAgent st.agents agent_type agent2, st.session_to_agent ++ [(sid, agent_type)]⟩)

/-- AgentManager.terminate_session (agent_system.py lines 411424): unknown
ids return False; otherwise the owning agent terminates the session and, on
success, the routing entry is deleted.  (The owning agent type is always
registered when the routing dict mentions it; the defensive none branch
mirrors the KeyError-free reading of the lookup.) -/
def terminate_session (st : State) (sid : String) (diesOnTerm : Bool) :
    Bool × State × List Eff :=
  match st.session_to_agent.find? (fun e => e.1 = sid) with
  | none => (false, st, [])
  | some entry =>
    match lookupAgent st.agents entry.2 with
    | none => (false, st, [])
    | some agent =>
      let r := BaseAgent.terminate_session agent sid diesOnTerm
      if r.1 then
        (true,
         ⟨setAgent st.agents entry.2 r.2.1,
          st.session_to_agent.filter (fun e => ¬ e.1 = sid)⟩,
         r.2.2)
      else (false, ⟨setAgent st.agents entry.2 r.2.1, st.session_to_agent⟩, r.2.2)

end AgentManager

/-- A manager holding one claude_code agent with per-user cap 1 and no
sessions. -/
def mgr0 : AgentManager.State := ⟨[(.claude_code, emptyAgent 1)], []⟩

/-- The manager state after user u1 creates session "a" (time 0) and then
session "b" (time 1): the agent evicts "a" while creating "b". -/
def mgr2 : AgentManager.State :=
  (AgentManager.create_session
    (AgentManager.create_session mgr0 .claude_code "u1" none "a" 0 "/work").2
    .claude_code "u1" none "b" 1 "/work").2

/-- Claim C3, refuted: after the cap-1 eviction of session "a", the agent's
sessions dict holds only "b", yet the manager's session_to_agent registry
still holds the entry for the dead session "a"  eviction bypasses the
manager, so the registry does not contain entries exactly for live
sessions. -/
theorem registry_stale_after_eviction_counterexample :
    AgentManager.lookupAgent mgr2.agents .claude_code =
      some ⟨cfgCapped 1, [mkUserSession "u1" "/work" ("b", 1)]⟩ ∧
    mgr2.session_to_agent = [("a", .claude_code), ("b", .claude_code)] := by
  constructor <;> rfl

/-- Claim C3 as amended: a routing entry is removed exactly by an explicit
AgentManager.terminate_session of a live session (which reports success and
deletes both the agent's session and the routing entry), while agent-level
eviction during create_session leaves the evicted session's routing entry
behind as a stale mapping. -/
theorem registry_removal_explicit_only :
    (∀ (st : AgentManager.State) (sid : String) (ty : AgentType)
       (agent : BaseAgent.State) (s : Session) (dies : Bool),
       st.session_to_agent.find? (fun e => e.1 = sid) = some (sid, ty) →
       AgentManager.lookupAgent st.agents ty = some agent →
       findSession agent.sessions sid = some s →
       (AgentManager.terminate_session st sid dies).1 = true ∧
       ((AgentManager.terminate_session st sid dies).2.1.session_to_agent.find?
         (fun e => e.1 = sid)) = none) ∧
    ((AgentManager.terminate_session mgr2 "b" true).1 = true ∧
     (AgentManager.terminate_session mgr2 "b" true).2.1.session_to_agent =
       [("a", .claude_code)]) ∧
    mgr2.session_to_agent = [("a", .claude_code), ("b", .claude_code)] := by
  refine ⟨?_, ⟨rfl, rfl⟩, rfl⟩
  intro st sid ty agent s dies hmap hagent hsess
  have hterm : (BaseAgent.terminate_session agent sid dies).1 = true := by
    unfold BaseAgent.terminate_session
    rw [hsess]
  unfold AgentManager.terminate_session
  rw [hmap]
  simp only [hagent, hterm, if_pos]
  constructor
  · trivial
  · rw [List.find?_eq_none]
    intro x hx
    have := List.of_mem_filter hx
    simpa using this

/-! ### Generic string-keyed dicts (claude_processes, pty_sessions, env) -/

def dictGet {α : Type} (m : List (String × α)) (k : String) : Option α :=
  (m.find? (fun e => e.1 = k)).map Prod.snd

def dictSet {α : Type} (m : List (String × α)) (k : String) (v : α) : List (String × α) :=
  if m.any (fun e => e.1 = k) then m.map (fun e => if e.1 = k then (k, v) else e)
  else m ++ [(k, v)]

def dictDel {α : Type} (m : List (String × α)) (k : String) : List (String × α) :=
  m.filter (fun e => ¬ e.1 = k)

/-- Outcome of the checks at the top of an execute_command call, before any
byte is written to the process. -/
inductive SubmitResult where
  | session_not_found
  | process_not_found
  | already_executing
  | proceed
deriving DecidableEq, Inhabited

/-- BaseAgent.execute_command's only entry check (agent_system.py lines
9496): session membership.  The base class tracks no in-flight executions,
so a second concurrent submission is never rejected. -/
def BaseAgent.execute_begin (st : BaseAgent.State) (sid : String) : SubmitResult :=
  if (findSession st.sessions sid).isNone then .session_not_found else .proceed

/-! ### PersistentClaudeAgent (persistent_claude_agent.py) -/

namespace PersistentClaudeAgent

/-- State of the persistent agent: the inherited sessions dict plus the
claude_processes dict and the executing_sessions set. -/
structure State where
  base : BaseAgent.State
  claude_processes : List (String × Proc)
  executing_sessions : List String
deriving DecidableEq, Inhabited

/-- PersistentClaudeAgent.terminate_session (lines 200217): the inherited
termination runs first, then the persistent process  if one is mapped
gets stdin.close(), terminate(), and kill() when still alive after the
0.1s sleep, and its dict entry is removed. -/
def terminate_session (st : State) (sid : String) (diesOnTerm : Bool) :
    Bool × State × List Eff :=
  let r := BaseAgent.terminate_session st.base sid diesOnTerm
  match dictGet st.claude_processes sid with
  | none => (r.1, ⟨r.2.1, st.claude_processes, st.executing_sessions⟩, r.2.2)
  | some p =>
    let effs2 := .stdin_close p.pid :: .proc_terminate p.pid ::
      (if diesOnTerm then [] else [.proc_kill p.pid])
    (r.1, ⟨r.2.1, dictDel st.claude_processes sid, st.executing_sessions⟩, r.2.2 ++ effs2)

/-- The super().create_session body as executed when self is a
PersistentClaudeAgent: identical to BaseAgent.create_session except that the
eviction path dynamically dispatches to this class's terminate_session.
(Release effects of an eviction are not tracked here.) -/
def create_session_base_step (st : State) (user_id : String)
    (working_directory : Option String) (sid : String) (now : Nat) (cwd : String) : State :=
  let user_sessions := st.base.sessions.filter (fun s => s.user_id = user_id)
  let st1 :=
    if st.base.config.max_sessions ≤ user_sessions.length then
      match BaseAgent.oldest user_sessions with
      | some o => (terminate_session st o.id true).2.1
      | none => st
    else st
  let wd :=
    match working_directory with
    | some w => w
    | none =>
      match st.base.config.working_directory with
      | some w => if w = "" then cwd else w
      | none => cwd
  ⟨{ st1.base with
      sessions := dictSetSession st1.base.sessions
        ⟨sid, user_id, st.base.config.agent_type, none, now, wd⟩ },
    st1.claude_processes, st1.executing_sessions⟩

/-- PersistentClaudeAgent.create_session (lines 1758): after the inherited
creation, the interactive process is spawned and recorded in
claude_processes, then one handshake line must arrive within 10 seconds
(_read_initial_output).  On a missing handshake the process is terminated
and an exception raised; the except block deletes the sessions entry and
re-raises  the claude_processes entry is not deleted.  On a spawn failure
the except block deletes the sessions entry (nothing was recorded in
claude_processes yet). -/
def create_session (st : State) (user_id : String) (working_directory : Option String)
    (sid : String) (now : Nat) (cwd : String) (pid : Int) (spawnOk initOk : Bool) :
    State × Option String × List Eff :=
  let st1 := create_session_base_step st user_id working_directory sid now cwd
  if spawnOk then
    let st2 : State :=
      ⟨st1.base, dictSet st1.claude_processes sid ⟨pid, none⟩, st1.executing_sessions⟩
    if initOk then (st2, none, [])
    else
      (⟨{ st2.base with sessions := st2.base.sessions.filter (fun t => ¬ t.id = sid) },
        st2.claude_processes, st2.executing_sessions⟩,
       some "Claude initialization failed - no system init message received",
       [.proc_terminate pid])
  else
    (⟨{ st1.base with sessions := st1.base.sessions.filter (fun t => ¬ t.id = sid) },
      st1.claude_processes, st1.executing_sessions⟩,
     some "spawn failed", [])

/-- The entry checks of PersistentClaudeAgent.execute_command (lines
8499) and the marking of the session as executing: unknown session, then
unknown process, then the duplicate-execution guard. -/
def execute_begin (st : State) (sid : String) : SubmitResult × State :=
  if (findSession st.base.sessions sid).isNone then (.session_not_found, st)
  else if (dictGet st.claude_processes sid).isNone then (.process_not_found, st)
  else if sid ∈ st.executing_sessions then (.already_executing, st)
  else (.proceed, ⟨st.base, st.claude_processes, sid :: st.executing_sessions⟩)

/-- The finally block of PersistentClaudeAgent.execute_command (lines
125127): the session is discarded from the executing set. -/
def execute_finish (st : State) (sid : String) : State :=
  ⟨st.base, st.claude_processes, st.executing_sessions.filter (fun x => ¬ x = sid)⟩

end PersistentClaudeAgent

/-! ### PTYClaudeAgent (pty_claude_agent.py) -/

namespace PTYClaudeAgent

/-- One pty_sessions value: master_fd, pid, buffered partial output, working
directory. -/
structure PtyInfo where
  master_fd : Int
  pid : Int
  buffer : String
  working_directory : String
deriving DecidableEq, Inhabited

structure State where
  base : BaseAgent.State
  pty_sessions : List (String × PtyInfo)
deriving DecidableEq, Inhabited

/-- PTYClaudeAgent.terminate_session (lines 205232): the inherited
termination, then for a mapped pty session SIGTERM, a 0.5s sleep and an
unconditional SIGKILL (a ProcessLookupError from either kill is swallowed,
so a signal is only delivered while the process is alive), then the master
descriptor is closed and the entry deleted. -/
def terminate_session (st : State) (sid : String)
    (aliveAtSigterm aliveAtSigkill diesOnTerm : Bool) : Bool × State × List Eff :=
  let r := BaseAgent.terminate_session st.base sid diesOnTerm
  match dictGet st.pty_sessions sid with
  | none => (r.1, ⟨r.2.1, st.pty_sessions⟩, r.2.2)
  | some info =>
    let sigEffs :=
      if aliveAtSigterm then
        .sigterm info.pid :: (if aliveAtSigkill then [.sigkill info.pid] else [])
      else []
    (r.1, ⟨r.2.1, dictDel st.pty_sessions sid⟩,
     r.2.2 ++ sigEffs ++ [.close_fd info.master_fd])

/-- The super().create_session body as executed when self is a
PTYClaudeAgent: the eviction path dynamically dispatches to this class's
terminate_session.  (Release effects of an eviction are not tracked
here.) -/
def create_session_base_step (st : State) (user_id : String)
    (working_directory : Option String) (sid : String) (now : Nat) (cwd : String) : State :=
  let user_sessions := st.base.sessions.filter (fun s => s.user_id = user_id)
  let st1 :=
    if st.base.config.max_sessions ≤ user_sessions.length then
      match BaseAgent.oldest user_sessions with
      | some o => (terminate_session st o.id true false true).2.1
      | none => st
    else st
  let wd :=
    match working_directory with
    | some w => w
    | none =>
      match st.base.config.working_directory with
      | some w => if w = "" then cwd else w
      | none => cwd
  ⟨{ st1.base with
      sessions := dictSetSession st1.base.sessions
        ⟨sid, user_id, st.base.config.agent_type, none, now, wd⟩ },
    st1.pty_sessions⟩

/-- PTYClaudeAgent.create_session (lines 2080) with
_wait_for_initialization (lines 82113): the pty pair is allocated, the
child forked, and the session info recorded; then the initialization wait
either observes a prompt-like chunk within its 10-second budget (and stores
it in the buffer) or times out  and a timeout only logs a warning and
breaks, so session creation succeeds either way.  No exception path deletes
anything in this flow. -/
def create_session (st : State) (user_id : String) (working_directory : Option String)
    (sid : String) (now : Nat) (cwd : String) (master_fd pid : Int)
    (initSeen : Bool) (initBuffer : String) : State × Option String :=
  let st1 := create_session_base_step st user_id working_directory sid now cwd
  let info : PtyInfo := ⟨master_fd, pid, "", (working_directory.getD cwd)⟩
  let st2 : State := ⟨st1.base, dictSet st1.pty_sessions sid info⟩
  let st3 : State :=
    if initSeen then
      ⟨st2.base, dictSet st2.pty_sessions sid { info with buffer := initBuffer }⟩
    else st2
  (st3, none)

/-- The entry check of PTYClaudeAgent.execute_command (lines 115119):
session and pty membership only  the class tracks no in-flight executions,
so nothing can ever be rejected as already executing. -/
def execute_begin (st : State) (sid : String) : SubmitResult × State :=
  if (findSession st.base.sessions sid).isNone ∨ (dictGet st.pty_sessions sid).isNone then
    (.session_not_found, st)
  else (.proceed, st)

end PTYClaudeAgent

/-! ### Dict lemmas -/

/-- Writing a key makes it readable: python dict assignment followed by
lookup. -/
theorem dictGet_dictSet_self {α : Type} (m : List (String × α)) (k : String) (v : α) :
    dictGet (dictSet m k v) k = some v := by
  unfold dictGet dictSet
  by_cases hany : (m.any (fun e => e.1 = k)) = true
  · rw [if_pos hany]
    induction m with
    | nil => simp at hany
    | cons e m ih =>
      by_cases he : e.1 = k
      · simp only [List.map_cons, if_pos he]
        rw [List.find?_cons_of_pos _ (by simp)]
        rfl
      · simp only [List.map_cons, if_neg he]
        rw [List.find?_cons_of_neg _ (by simp [he])]
        exact ih (by simpa [List.any_cons, he] using hany)
  · rw [if_neg hany]
    rw [List.find?_append]
    have hfalse : (m.any (fun e => e.1 = k)) = false := Bool.eq_false_iff.mpr hany
    have hnone : m.find? (fun e => e.1 = k) = none := by
      rw [List.find?_eq_none]
      exact List.any_eq_false.mp hfalse
    rw [hnone]
    rw [List.find?_cons_of_pos _ (by simp)]
    rfl

/-- Specialization: the looked-up value exists. -/
theorem dictGet_dictSet_isSome {α : Type} (m : List (String × α)) (k : String) (v : α) :
    (dictGet (dictSet m k v) k).isSome = true := by
  rw [dictGet_dictSet_self]
  rfl

/-- Storing a session makes it findable under its id. -/
theorem findSession_dictSetSession (l : List Session) (s : Session) :
    findSession (dictSetSession l s) s.id = some s := by
  unfold findSession dictSetSession
  by_cases hany : (l.any (fun t => t.id = s.id)) = true
  · rw [if_pos hany]
    induction l with
    | nil => simp at hany
    | cons a l ih =>
      by_cases ha : a.id = s.id
      · simp only [List.map_cons, if_pos ha]
        rw [List.find?_cons_of_pos _ (by simp)]
      · simp only [List.map_cons, if_neg ha]
        rw [List.find?_cons_of_neg _ (by simp [ha])]
        exact ih (by simpa [List.any_cons, ha] using hany)
  · rw [if_neg hany]
    rw [List.find?_append]
    have hfalse : (l.any (fun t => t.id = s.id)) = false := Bool.eq_false_iff.mpr hany
    have hnone : l.find? (fun t => t.id = s.id) = none := by
      rw [List.find?_eq_none]
      exact List.any_eq_false.mp hfalse
    rw [hnone]
    rw [List.find?_cons_of_pos _ (by simp)]
    rfl

/-- Specialization: the stored session is found. -/
theorem findSession_dictSetSession_isSome (l : List Session) (s : Session) :
    (findSession (dictSetSession l s) s.id).isSome = true := by
  rw [findSession_dictSetSession]
  rfl

/-! ### Concurrent submissions (claim C2) -/

/-- A persistent agent holding the idle session "s1" with its interactive
process, nothing executing. -/
def per1 : PersistentClaudeAgent.State := ⟨stIdle 3600, [("s1", ⟨77, none⟩)], []⟩

/-- A pty agent holding session "s1" with its pty descriptor pair. -/
def pty1 : PTYClaudeAgent.State := ⟨stIdle 3600, [("s1", ⟨5, 77, "", "/work"⟩)]⟩

/-- Claim C2, refuted on the pty variant: session "s1" is live, a first
submission has begun, and a second concurrent submission on the same
session also passes the entry checks and proceeds  PTYClaudeAgent tracks
no in-flight executions and never answers AlreadyExecuting. -/
theorem pty_concurrent_submission_counterexample :
    (PTYClaudeAgent.execute_begin pty1 "s1").1 = .proceed ∧
    (PTYClaudeAgent.execute_begin (PTYClaudeAgent.execute_begin pty1 "s1").2 "s1").1
      = .proceed ∧
    SubmitResult.proceed ≠ SubmitResult.already_executing := by
  refine ⟨by decide, by decide, by decide⟩

/-- Claim C2 as amended: only the persistent variant enforces the
at-most-one-in-flight rule  its begin step marks the session executing, a
second concurrent submission is rejected with AlreadyExecuting (exactly one
proceeds, nothing is queued), and the finally step unmarks it so a later
submission proceeds again.  The base (one-shot) and pty variants perform no
in-flight check and never reject a submission as already executing. -/
theorem already_executing_persistent_only :
    (∀ (base : BaseAgent.State) (procs : List (String × Proc)) (execs : List String)
        (sid : String),
      (findSession base.sessions sid).isSome = true →
      (dictGet procs sid).isSome = true →
      sid ∉ execs →
      (PersistentClaudeAgent.execute_begin ⟨base, procs, execs⟩ sid).1 = .proceed ∧
      (PersistentClaudeAgent.execute_begin
        (PersistentClaudeAgent.execute_begin ⟨base, procs, execs⟩ sid).2 sid).1
        = .already_executing ∧
      (PersistentClaudeAgent.execute_begin
        (PersistentClaudeAgent.execute_finish
          (PersistentClaudeAgent.execute_begin ⟨base, procs, execs⟩ sid).2 sid) sid).1
        = .proceed) ∧
    (∀ (st : PTYClaudeAgent.State) (sid : String),
      (PTYClaudeAgent.execute_begin st sid).1 ≠ .already_executing) ∧
    (∀ (st : BaseAgent.State) (sid : String),
      BaseAgent.execute_begin st sid ≠ .already_executing) ∧
    ((PersistentClaudeAgent.execute_begin per1 "s1").1 = .proceed ∧
     (PersistentClaudeAgent.execute_begin
       (PersistentClaudeAgent.execute_begin per1 "s1").2 "s1").1 = .already_executing ∧
     (PersistentClaudeAgent.execute_begin
       (PersistentClaudeAgent.execute_finish
         (PersistentClaudeAgent.execute_begin per1 "s1").2 "s1") "s1").1 = .proceed) := by
  refine ⟨?_, ?_, ?_, by decide, by decide, by decide⟩
  · intro base procs execs sid hs hp hnx
    obtain ⟨s, hsv⟩ := Option.isSome_iff_exists.mp hs
    obtain ⟨p, hpv⟩ := Option.isSome_iff_exists.mp hp
    have hb1 : PersistentClaudeAgent.execute_begin ⟨base, procs, execs⟩ sid =
        (.proceed, ⟨base, procs, sid :: execs⟩) := by
      unfold PersistentClaudeAgent.execute_begin
      dsimp only
      rw [hsv, hpv]
      rw [if_neg (by simp), if_neg (by simp), if_neg hnx]
    have hb2 : (PersistentClaudeAgent.execute_begin ⟨base, procs, sid :: execs⟩ sid).1
        = .already_executing := by
      unfold PersistentClaudeAgent.execute_begin
      dsimp only
      rw [hsv, hpv]
      rw [if_neg (by simp), if_neg (by simp), if_pos (List.mem_cons_self sid execs)]
    have hfin : PersistentClaudeAgent.execute_finish ⟨base, procs, sid :: execs⟩ sid =
        ⟨base, procs, execs.filter (fun x => ¬ x = sid)⟩ := by
      unfold PersistentClaudeAgent.execute_finish
      dsimp only
      rw [List.filter_cons_of_neg (by simp)]
    have hb3 : (PersistentClaudeAgent.execute_begin
        ⟨base, procs, execs.filter (fun x => ¬ x = sid)⟩ sid).1 = .proceed := by
      unfold PersistentClaudeAgent.execute_begin
      dsimp only
      rw [hsv, hpv]
      rw [if_neg (by simp), if_neg (by simp)]
      rw [if_neg ?hmem]
      case hmem =>
        intro hmem
        have h := List.of_mem_filter hmem
        simp at h
    refine ⟨by rw [hb1], by rw [hb1]; exact hb2, ?_⟩
    rw [hb1]
    dsimp only
    rw [hfin]
    exact hb3
  · intro st sid
    unfold PTYClaudeAgent.execute_begin
    by_cases h : (findSession st.base.sessions sid).isNone = true ∨
        (dictGet st.pty_sessions sid).isNone = true
    · rw [if_pos h]
      intro hc
      cases hc
    · rw [if_neg h]
      intro hc
      cases hc
  · intro st sid
    unfold BaseAgent.execute_begin
    by_cases h : (findSession st.sessions sid).isNone = true
    · rw [if_pos h]
      intro hc
      cases hc
    · rw [if_neg h]
      intro hc
      cases hc

/-! ### Initialization-failure cleanup (claim C4) -/

/-- A fresh persistent agent: no sessions, no processes. -/
def per0 : PersistentClaudeAgent.State := ⟨emptyAgent 5, [], []⟩

/-- A fresh pty agent. -/
def pty0 : PTYClaudeAgent.State := ⟨emptyAgent 5, []⟩

/-- Claim C4, refuted on the persistent variant: when the handshake line
never arrives, create_session aborts with the initialization error and
removes the sessions entry, but the claude_processes map entry for the dead
session is left behind  not every per-session map entry is released. -/
theorem persistent_init_failure_leak_counterexample :
    (PersistentClaudeAgent.create_session per0 "u1" none "s1" 0 "/work" 77 true false).2.1
      = some "Claude initialization failed - no system init message received" ∧
    (PersistentClaudeAgent.create_session per0 "u1" none "s1" 0 "/work" 77 true false).1.base.sessions
      = [] ∧
    (PersistentClaudeAgent.create_session per0 "u1" none "s1" 0 "/work" 77 true false).1.claude_processes
      = [("s1", Proc.mk 77 none)] := by
  refine ⟨rfl, by decide, by decide⟩

/-- Claim C4 as amended: on the persistent variant a missing handshake
aborts creation with the initialization error, removes the sessions entry
and terminates the process (SIGTERM only), but leaves the claude_processes
entry behind; on the pty variant a handshake timeout does not abort
creation at all  no error is reported, and both the sessions entry and
the pty_sessions entry are present afterwards. -/
theorem init_failure_cleanup_partial :
    (∀ (st : PersistentClaudeAgent.State) (uid : String) (owd : Option String)
        (sid : String) (now : Nat) (cwd : String) (pid : Int),
      (PersistentClaudeAgent.create_session st uid owd sid now cwd pid true false).2.1
        = some "Claude initialization failed - no system init message received" ∧
      (∀ s ∈ (PersistentClaudeAgent.create_session st uid owd sid now cwd pid
          true false).1.base.sessions, ¬ s.id = sid) ∧
      dictGet (PersistentClaudeAgent.create_session st uid owd sid now cwd pid
          true false).1.claude_processes sid = some (Proc.mk pid none) ∧
      (PersistentClaudeAgent.create_session st uid owd sid now cwd pid true false).2.2
        = [.proc_terminate pid]) ∧
    (∀ (st : PTYClaudeAgent.State) (uid : String) (owd : Option String)
        (sid : String) (now : Nat) (cwd : String) (mfd pid : Int) (buf : String),
      (PTYClaudeAgent.create_session st uid owd sid now cwd mfd pid false buf).2 = none ∧
      (findSession
        (PTYClaudeAgent.create_session st uid owd sid now cwd mfd pid false buf).1.base.sessions
        sid).isSome = true ∧
      (dictGet
        (PTYClaudeAgent.create_session st uid owd sid now cwd mfd pid false buf).1.pty_sessions
        sid).isSome = true) := by
  constructor
  · intro st uid owd sid now cwd pid
    refine ⟨rfl, ?_, ?_, rfl⟩
    · intro s hs
      have h := List.of_mem_filter hs
      simpa using h
    · exact dictGet_dictSet_self _ sid (Proc.mk pid none)
  · intro st uid owd sid now cwd mfd pid buf
    refine ⟨rfl, ?_, ?_⟩
    · exact findSession_dictSetSession_isSome _ _
    · exact dictGet_dictSet_isSome _ sid _

/-! ### ClaudeCodeCLIAgent command building (claim C7) -/

namespace ClaudeCodeCLIAgent

/-- ClaudeCLISession (claude_cli_agent.py lines 2027). -/
structure ClaudeCLISession where
  session_id : String
  claude_session_id : Option String := none
  working_directory : String := "."
  conversation_turns : Nat := 0
  last_command : Option String := none
deriving DecidableEq, Inhabited

/-- _build_claude_command (claude_cli_agent.py lines 129156): the claude
path, print mode, the JSON output format when configured, then  only once
the session has completed at least one turn  either resume with the stored
Claude session id or continue, then the cwd override when the session's
working directory differs from the process's, then the message. -/
def build_claude_command (claude_path : String) (stream_format : String)
    (cwd : String) (cli_session : ClaudeCLISession) (message : String) : List String :=
  let cmd := [claude_path, "-p"]
  let cmd := cmd ++ (if stream_format = "json" then ["--output-format", "json"] else [])
  let cmd := cmd ++
    (if 0 < cli_session.conversation_turns then
      match cli_session.claude_session_id with
      | some tok => ["--resume", tok]
      | none => ["--continue"]
    else [])
  let cmd := cmd ++
    (if ¬ cli_session.working_directory = cwd then
      ["--cwd", cli_session.working_directory] else [])
  cmd ++ [message]

/-- The bookkeeping at the end of a successful execute_command turn
(claude_cli_agent.py lines 115117): the turn counter advances and the
message is recorded. -/
def after_turn (cli_session : ClaudeCLISession) (message : String) : ClaudeCLISession :=
  { cli_session with
    conversation_turns := cli_session.conversation_turns + 1
    last_command := some message }

/-- The CLI session stored by create_session (lines 7485). -/
def newCLISession (sid wd : String) : ClaudeCLISession :=
  { session_id := sid, working_directory := wd }

end ClaudeCodeCLIAgent

/-- Claim C7: the first turn's command carries no continuation flag; after a
completed turn the command carries either the continue flag (no stored
token) or the resume flag immediately followed by the stored token; and one
completed turn advances the counter past zero. -/
theorem continuation_flag_round_trip :
    (∀ claude_path stream_format cwd sid wd msg : String,
      ¬ msg = "--continue" → ¬ msg = "--resume" →
      ¬ claude_path = "--continue" → ¬ claude_path = "--resume" →
      ¬ wd = "--continue" → ¬ wd = "--resume" →
      "--continue" ∉ ClaudeCodeCLIAgent.build_claude_command claude_path stream_format cwd
        (ClaudeCodeCLIAgent.newCLISession sid wd) msg ∧
      "--resume" ∉ ClaudeCodeCLIAgent.build_claude_command claude_path stream_format cwd
        (ClaudeCodeCLIAgent.newCLISession sid wd) msg) ∧
    (∀ claude_path stream_format cwd sid wd msgA msgB : String,
      "--continue" ∈ ClaudeCodeCLIAgent.build_claude_command claude_path stream_format cwd
        (ClaudeCodeCLIAgent.after_turn (ClaudeCodeCLIAgent.newCLISession sid wd) msgA) msgB) ∧
    (∀ claude_path stream_format cwd sid wd msgA msgB tok : String,
      ["--resume", tok] <:+: ClaudeCodeCLIAgent.build_claude_command claude_path stream_format cwd
        { ClaudeCodeCLIAgent.after_turn (ClaudeCodeCLIAgent.newCLISession sid wd) msgA with
          claude_session_id := some tok } msgB) ∧
    (ClaudeCodeCLIAgent.after_turn (ClaudeCodeCLIAgent.newCLISession "s1" "/work")
      "A").conversation_turns = 1 := by
  refine ⟨?_, ?_, ?_, rfl⟩
  · intro cp sf cwd sid wd msg h1 h2 h3 h4 h5 h6
    have g1 : ¬ "--continue" = msg := fun hh => h1 hh.symm
    have g2 : ¬ "--resume" = msg := fun hh => h2 hh.symm
    have g3 : ¬ "--continue" = cp := fun hh => h3 hh.symm
    have g4 : ¬ "--resume" = cp := fun hh => h4 hh.symm
    have g5 : ¬ "--continue" = wd := fun hh => h5 hh.symm
    have g6 : ¬ "--resume" = wd := fun hh => h6 hh.symm
    unfold ClaudeCodeCLIAgent.build_claude_command ClaudeCodeCLIAgent.newCLISession
    dsimp only
    constructor <;>
      · by_cases hsf : sf = "json" <;> by_cases hwd : ¬ wd = cwd <;>
          simp [hsf, hwd, g1, g2, g3, g4, g5, g6]
  · intro cp sf cwd sid wd msgA msgB
    unfold ClaudeCodeCLIAgent.build_claude_command ClaudeCodeCLIAgent.after_turn
      ClaudeCodeCLIAgent.newCLISession
    dsimp only
    by_cases hsf : sf = "json" <;> by_cases hwd : ¬ wd = cwd <;> simp [hsf, hwd]
  · intro cp sf cwd sid wd msgA msgB tok
    refine ⟨[cp, "-p"] ++ (if sf = "json" then ["--output-format", "json"] else []),
            (if ¬ wd = cwd then ["--cwd", wd] else []) ++ [msgB], ?_⟩
    unfold ClaudeCodeCLIAgent.build_claude_command ClaudeCodeCLIAgent.after_turn
      ClaudeCodeCLIAgent.newCLISession
    dsimp only
    simp

/-! ### Spawn environments (claim C9) -/

/-- Keys other than the written one read unchanged through a dict
assignment. -/
theorem find?_map_replaceKey {α : Type} (m : List (String × α)) (k k2 : String) (v : α)
    (h : ¬ k2 = k) :
    (m.map (fun e => if e.1 = k then (k, v) else e)).find? (fun e => e.1 = k2)
      = m.find? (fun e => e.1 = k2) := by
  induction m with
  | nil => rfl
  | cons e m ih =>
    by_cases he : e.1 = k
    · simp only [List.map_cons, if_pos he]
      rw [List.find?_cons_of_neg _ (by simp; intro hh; exact h hh.symm),
          List.find?_cons_of_neg _ (by rw [he]; simp; intro hh; exact h hh.symm)]
      exact ih
    · simp only [List.map_cons, if_neg he]
      by_cases he2 : e.1 = k2
      · rw [List.find?_cons_of_pos _ (by simp [he2]),
            List.find?_cons_of_pos _ (by simp [he2])]
      · rw [List.find?_cons_of_neg _ (by simp [he2]),
            List.find?_cons_of_neg _ (by simp [he2])]
        exact ih

theorem dictGet_dictSet_ne {α : Type} (m : List (String × α)) (k k2 : String) (v : α)
    (h : ¬ k2 = k) : dictGet (dictSet m k v) k2 = dictGet m k2 := by
  unfold dictGet dictSet
  by_cases hany : (m.any (fun e => e.1 = k)) = true
  · rw [if_pos hany, find?_map_replaceKey m k k2 v h]
  · rw [if_neg hany, List.find?_append]
    rw [show List.find? (fun e => e.1 = k2) [(k, v)] = none from by
      rw [List.find?_eq_none]
      intro x hx
      simp at hx
      subst hx
      simp
      intro hh
      exact h hh.symm]
    rw [Option.or_none]

theorem dictGet_dictDel_self {α : Type} (m : List (String × α)) (k : String) :
    dictGet (dictDel m k) k = none := by
  unfold dictGet dictDel
  rw [show (m.filter (fun e => ¬ e.1 = k)).find? (fun e => e.1 = k) = none from by
    rw [List.find?_eq_none]
    intro x hx
    simpa using List.of_mem_filter hx]
  rfl

theorem dictGet_dictDel_ne {α : Type} (m : List (String × α)) (k k2 : String)
    (h : ¬ k2 = k) : dictGet (dictDel m k) k2 = dictGet m k2 := by
  unfold dictGet dictDel
  congr 1
  induction m with
  | nil => rfl
  | cons e m ih =>
    by_cases hek : e.1 = k
    · rw [List.filter_cons_of_neg (by simp [hek])]
      rw [List.find?_cons_of_neg _ (by rw [hek]; simp; intro hh; exact h hh.symm)]
      exact ih
    · rw [List.filter_cons_of_pos (by simp [hek])]
      by_cases he2 : e.1 = k2
      · rw [List.find?_cons_of_pos _ (by simp [he2]),
            List.find?_cons_of_pos _ (by simp [he2])]
      · rw [List.find?_cons_of_neg _ (by simp [he2]),
            List.find?_cons_of_neg _ (by simp [he2])]
        exact ih

namespace ClaudeCodeAgent

/-- ClaudeCodeAgent.create_process (agent_system.py lines 263275): the
spawn environment is os.environ with HOME set  nothing is filtered. -/
def create_process_env (osEnv : List (String × String)) (home : String) :
    List (String × String) :=
  dictSet osEnv "HOME" home

end ClaudeCodeAgent

namespace PersistentClaudeAgent

/-- PersistentClaudeAgent._get_environment (persistent_claude_agent.py lines
6065): os.environ with HOME set  nothing is filtered. -/
def get_environment (osEnv : List (String × String)) (home : String) :
    List (String × String) :=
  dictSet osEnv "HOME" home

end PersistentClaudeAgent

namespace ClaudeCodeCLIAgent

/-- The placeholder credential values _execute_claude_cli deletes. -/
def placeholder_api_keys : List String :=
  ["your_anthropic_api_key_here", "your_key_here", ""]

/-- The two XDG default assignments at the end of the environment setup
(claude_cli_agent.py lines 171174). -/
def cli_xdg_defaults (env : List (String × String)) (home : String) :
    List (String × String) :=
  let env :=
    if (dictGet env "XDG_CONFIG_HOME").isNone then
      dictSet env "XDG_CONFIG_HOME" (home ++ "/.config")
    else env
  if (dictGet env "XDG_CACHE_HOME").isNone then
    dictSet env "XDG_CACHE_HOME" (home ++ "/.cache")
  else env

/-- The spawn environment of _execute_claude_cli (claude_cli_agent.py lines
161174): os.environ with HOME set, then an ANTHROPIC_API_KEY whose value
is one of the placeholder strings or empty is deleted, then the XDG
defaults are filled in. -/
def cli_env (osEnv : List (String × String)) (home : String) :
    List (String × String) :=
  let env := dictSet osEnv "HOME" home
  let env :=
    match dictGet env "ANTHROPIC_API_KEY" with
    | some v => if v ∈ placeholder_api_keys then dictDel env "ANTHROPIC_API_KEY" else env
    | none => env
  cli_xdg_defaults env home

end ClaudeCodeCLIAgent

/-- The XDG default assignments change neither HOME nor the credential
variable. -/
theorem dictGet_cli_xdg_defaults (env : List (String × String)) (home k : String)
    (h1 : ¬ k = "XDG_CONFIG_HOME") (h2 : ¬ k = "XDG_CACHE_HOME") :
    dictGet (ClaudeCodeCLIAgent.cli_xdg_defaults env home) k = dictGet env k := by
  unfold ClaudeCodeCLIAgent.cli_xdg_defaults
  by_cases hc1 : (dictGet env "XDG_CONFIG_HOME").isNone = true
  · rw [if_pos hc1]
    by_cases hc2 :
        (dictGet (dictSet env "XDG_CONFIG_HOME" (home ++ "/.config")) "XDG_CACHE_HOME").isNone
          = true
    · rw [if_pos hc2, dictGet_dictSet_ne _ _ _ _ h2, dictGet_dictSet_ne _ _ _ _ h1]
    · rw [if_neg hc2, dictGet_dictSet_ne _ _ _ _ h1]
  · rw [if_neg hc1]
    by_cases hc2 : (dictGet env "XDG_CACHE_HOME").isNone = true
    · rw [if_pos hc2, dictGet_dictSet_ne _ _ _ _ h2]
    · rw [if_neg hc2]

/-- Claim C9, refuted: the one-shot ClaudeCodeAgent spawn passes an empty
ANTHROPIC_API_KEY through unchanged, and the persistent agent's environment
passes a placeholder through unchanged  only the CLI agent's spawn path
removes them. -/
theorem api_key_passthrough_counterexample :
    dictGet (ClaudeCodeAgent.create_process_env [("ANTHROPIC_API_KEY", "")] "/root")
      "ANTHROPIC_API_KEY" = some "" ∧
    dictGet (PersistentClaudeAgent.get_environment
        [("ANTHROPIC_API_KEY", "your_anthropic_api_key_here")] "/root")
      "ANTHROPIC_API_KEY" = some "your_anthropic_api_key_here" ∧
    dictGet (ClaudeCodeCLIAgent.cli_env [("ANTHROPIC_API_KEY", "")] "/root")
      "ANTHROPIC_API_KEY" = none := by
  refine ⟨by decide, by decide, by decide⟩

/-- Claim C9 as amended: every spawn environment carries the home-directory
variable, but only the CLI agent's spawn path removes a placeholder or
empty ANTHROPIC_API_KEY; the one-shot and persistent spawn paths pass the
credential variable through unchanged. -/
theorem spawn_env_home_and_cli_filter :
    (∀ (osEnv : List (String × String)) (home : String),
      dictGet (ClaudeCodeAgent.create_process_env osEnv home) "HOME" = some home ∧
      dictGet (PersistentClaudeAgent.get_environment osEnv home) "HOME" = some home ∧
      dictGet (ClaudeCodeCLIAgent.cli_env osEnv home) "HOME" = some home) ∧
    (∀ (osEnv : List (String × String)) (home v : String),
      dictGet osEnv "ANTHROPIC_API_KEY" = some v →
      v ∈ ClaudeCodeCLIAgent.placeholder_api_keys →
      dictGet (ClaudeCodeCLIAgent.cli_env osEnv home) "ANTHROPIC_API_KEY" = none) ∧
    (∀ (osEnv : List (String × String)) (home v : String),
      dictGet osEnv "ANTHROPIC_API_KEY" = some v →
      dictGet (ClaudeCodeAgent.create_process_env osEnv home) "ANTHROPIC_API_KEY" = some v ∧
      dictGet (PersistentClaudeAgent.get_environment osEnv home) "ANTHROPIC_API_KEY"
        = some v) := by
  refine ⟨?_, ?_, ?_⟩
  · intro osEnv home
    refine ⟨dictGet_dictSet_self _ _ _, dictGet_dictSet_self _ _ _, ?_⟩
    unfold ClaudeCodeCLIAgent.cli_env
    rw [dictGet_cli_xdg_defaults _ _ _ (by decide) (by decide)]
    have hset : dictGet (dictSet osEnv "HOME" home) "HOME" = some home :=
      dictGet_dictSet_self _ _ _
    cases hA : dictGet (dictSet osEnv "HOME" home) "ANTHROPIC_API_KEY" with
    | none => exact hset
    | some v =>
      dsimp only
      by_cases hv : v ∈ ClaudeCodeCLIAgent.placeholder_api_keys
      · rw [if_pos hv, dictGet_dictDel_ne _ _ _ (by decide)]
        exact hset
      · rw [if_neg hv]
        exact hset
  · intro osEnv home v hget hv
    unfold ClaudeCodeCLIAgent.cli_env
    rw [dictGet_cli_xdg_defaults _ _ _ (by decide) (by decide)]
    have hA : dictGet (dictSet osEnv "HOME" home) "ANTHROPIC_API_KEY" = some v := by
      rw [dictGet_dictSet_ne _ _ _ _ (by decide)]
      exact hget
    rw [hA]
    dsimp only
    rw [if_pos hv]
    exact dictGet_dictDel_self _ _
  · intro osEnv home v hget
    constructor
    · unfold ClaudeCodeAgent.create_process_env
      rw [dictGet_dictSet_ne _ _ _ _ (by decide)]
      exact hget
    · unfold PersistentClaudeAgent.get_environment
      rw [dictGet_dictSet_ne _ _ _ _ (by decide)]
      exact hget

/-! ### Termination idempotence (claim C10) -/

/-- After the deletion, the session is gone. -/
theorem findSession_filter_self (l : List Session) (sid : String) :
    findSession (l.filter (fun t => ¬ t.id = sid)) sid = none := by
  unfold findSession
  rw [List.find?_eq_none]
  intro x hx
  simpa using List.of_mem_filter hx

/-- Claim C10: terminating a live pty session returns success, delivers the
graceful-then-forced signals while the process is alive, closes the master
descriptor exactly once and removes both map entries; a second call on the
same id returns not-found and performs no signal delivery and no descriptor
close at all.  (The pty path holds no process reference in the inherited
Session, so the inherited layer releases nothing there.) -/
theorem terminate_session_idempotent (base : BaseAgent.State)
    (ptys : List (String × PTYClaudeAgent.PtyInfo)) (sid : String) (s : Session)
    (info : PTYClaudeAgent.PtyInfo) (a b dies : Bool)
    (hs : findSession base.sessions sid = some s)
    (hproc : s.process = none)
    (hpty : dictGet ptys sid = some info) :
    (PTYClaudeAgent.terminate_session ⟨base, ptys⟩ sid a b dies).1 = true ∧
    (PTYClaudeAgent.terminate_session ⟨base, ptys⟩ sid a b dies).2.2 =
      (if a then Eff.sigterm info.pid :: (if b then [Eff.sigkill info.pid] else []) else [])
        ++ [Eff.close_fd info.master_fd] ∧
    ((PTYClaudeAgent.terminate_session ⟨base, ptys⟩ sid a b dies).2.2.count
      (Eff.close_fd info.master_fd)) = 1 ∧
    (PTYClaudeAgent.terminate_session
      (PTYClaudeAgent.terminate_session ⟨base, ptys⟩ sid a b dies).2.1 sid a b dies).1
      = false ∧
    (PTYClaudeAgent.terminate_session
      (PTYClaudeAgent.terminate_session ⟨base, ptys⟩ sid a b dies).2.1 sid a b dies).2.2
      = [] := by
  have hb : BaseAgent.terminate_session base sid dies =
      (true, { base with sessions := base.sessions.filter (fun t => ¬ t.id = sid) }, []) := by
    unfold BaseAgent.terminate_session
    rw [hs]
    dsimp only
    rw [hproc]
  have h1 : PTYClaudeAgent.terminate_session ⟨base, ptys⟩ sid a b dies =
      (true,
       ⟨{ base with sessions := base.sessions.filter (fun t => ¬ t.id = sid) },
        dictDel ptys sid⟩,
       (if a then Eff.sigterm info.pid :: (if b then [Eff.sigkill info.pid] else []) else [])
         ++ [Eff.close_fd info.master_fd]) := by
    unfold PTYClaudeAgent.terminate_session
    dsimp only
    rw [hb, hpty]
    rfl
  have hb2 : BaseAgent.terminate_session
      { base with sessions := base.sessions.filter (fun t => ¬ t.id = sid) } sid dies =
      (false, { base with sessions := base.sessions.filter (fun t => ¬ t.id = sid) }, []) := by
    unfold BaseAgent.terminate_session
    dsimp only
    rw [findSession_filter_self]
  have hp2 : dictGet (dictDel ptys sid) sid = none := dictGet_dictDel_self _ _
  have h2 : PTYClaudeAgent.terminate_session
      ⟨{ base with sessions := base.sessions.filter (fun t => ¬ t.id = sid) },
       dictDel ptys sid⟩ sid a b dies =
      (false,
       ⟨{ base with sessions := base.sessions.filter (fun t => ¬ t.id = sid) },
        dictDel ptys sid⟩,
       []) := by
    unfold PTYClaudeAgent.terminate_session
    dsimp only
    rw [hb2, hp2]
  refine ⟨by rw [h1], by rw [h1], ?_, ?_, ?_⟩
  · rw [h1]
    cases a <;> cases b <;> simp
  · rw [h1]
    dsimp only
    rw [h2]
  · rw [h1]
    dsimp only
    rw [h2]

/-- Witness for terminate_session_idempotent at the live pty session "s1"
(alive at both signals, inherited process dies on terminate). -/
theorem terminate_session_idempotent_witness :
    (PTYClaudeAgent.terminate_session ⟨stIdle 3600, [("s1", ⟨5, 77, "", "/work"⟩)]⟩
      "s1" true true true).1 = true ∧
    (PTYClaudeAgent.terminate_session ⟨stIdle 3600, [("s1", ⟨5, 77, "", "/work"⟩)]⟩
      "s1" true true true).2.2 =
      (if true then Eff.sigterm 77 :: (if true then [Eff.sigkill 77] else []) else [])
        ++ [Eff.close_fd 5] ∧
    ((PTYClaudeAgent.terminate_session ⟨stIdle 3600, [("s1", ⟨5, 77, "", "/work"⟩)]⟩
      "s1" true true true).2.2.count (Eff.close_fd 5)) = 1 ∧
    (PTYClaudeAgent.terminate_session
      (PTYClaudeAgent.terminate_session ⟨stIdle 3600, [("s1", ⟨5, 77, "", "/work"⟩)]⟩
        "s1" true true true).2.1 "s1" true true true).1 = false ∧
    (PTYClaudeAgent.terminate_session
      (PTYClaudeAgent.terminate_session ⟨stIdle 3600, [("s1", ⟨5, 77, "", "/work"⟩)]⟩
        "s1" true true true).2.1 "s1" true true true).2.2 = [] :=
  terminate_session_idempotent (stIdle 3600) [("s1", ⟨5, 77, "", "/work"⟩)] "s1"
    sessionS1 ⟨5, 77, "", "/work"⟩ true true true rfl rfl rfl

end RemoteAgent
